import Mathlib

/-!
Shallow embedding of the temporal scoring pipeline of `fetch-traders-port`
(`src/main.py`, scoring core at lines 190-408, plus the enrichment helpers in
`src/utils/birdseye.py`).  Timestamps (`FETCH_DATE`) are modelled as integers
measured in hours; the nullable numeric warehouse columns (`TOTAL_BALANCE`,
`TRADER_COUNT`) are modelled as `Option` values, and Python floats by `ℚ`
(the decimal constants of the source are exact rationals).
-/

namespace FetchTradersPort

/-- One row of `TRADER_PORTFOLIO_AGG` as consumed by the pipeline:
`TOKEN_SYMBOL`, `TOKEN_ADDRESS`, `CATEGORY`, `TOTAL_BALANCE`, `TRADER_COUNT`,
`FETCH_DATE` (the `TOTAL_VALUE_USD` column is read but never used by the
scoring core, so it is omitted). -/
structure Snapshot where
  sym : String
  addr : String
  cat : String
  balance : Option ℚ
  traders : Option ℕ
  date : ℤ
deriving DecidableEq

/-- `time_intervals = [1, 2, 4, 12, 24]` paired with
`time_labels = ['1h', '2h', '4h', '12h', '24h']` (main.py lines 174-175). -/
def windowsConfig : List (String × ℤ) :=
  [("1h", 1), ("2h", 2), ("4h", 4), ("12h", 12), ("24h", 24)]

/-- `weights = {'1h': 0.4, '2h': 0.35, '4h': 0.2, '12h': 0.05, '24h': 0.0}`
(main.py line 176).  Labels outside the dict would map to NaN in pandas; the
pipeline only ever looks up the five configured labels, so the default branch
is unreachable on every input the pipeline produces. -/
def weights : String → ℚ
  | "1h" => 2/5
  | "2h" => 7/20
  | "4h" => 1/5
  | "12h" => 1/20
  | "24h" => 0
  | _ => 0

/-- `compute_balance_pct_change` (main.py lines 284-293): `0.0` when either
input is null, `100.0`/`0.0` at a zero past depending on the sign of
`current`, else `(current - past) / abs(past) * 100`. -/
def compute_balance_pct_change (current past : Option ℚ) : ℚ :=
  match current, past with
  | some c, some p =>
    if p = 0 then (if 0 < c then 100 else 0) else (c - p) / |p| * 100
  | _, _ => 0

/-- `compute_trader_count_score` (main.py lines 301-309): `0.0` when either
input is null or `current <= past`, else `2 ** current - 2 ** past`. -/
def compute_trader_count_score (current past : Option ℕ) : ℚ :=
  match current, past with
  | some c, some p => if c ≤ p then 0 else (2 : ℚ) ^ c - (2 : ℚ) ^ p
  | _, _ => 0

/-- `compute_trader_count_pct_change` (main.py lines 317-326): same shape as
the balance percent change, on the trader counts; display only. -/
def compute_trader_count_pct_change (current past : Option ℕ) : ℚ :=
  match current, past with
  | some c, some p =>
    if p = 0 then (if 0 < c then 100 else 0)
    else ((c : ℚ) - (p : ℚ)) / |(p : ℚ)| * 100
  | _, _ => 0

/-- Ordering of snapshots by `FETCH_DATE`, used for
`df.sort_values(['FETCH_DATE', 'TOKEN_SYMBOL'])` restricted to one token
(main.py line 225). -/
def dateLe (a b : Snapshot) : Prop := a.date ≤ b.date

instance : DecidableRel dateLe := fun a b => inferInstanceAs (Decidable (a.date ≤ b.date))

instance : IsTotal Snapshot dateLe := ⟨fun a b => le_total a.date b.date⟩

instance : IsTrans Snapshot dateLe := ⟨fun _ _ _ hab hbc => le_trans hab hbc⟩

/-- A token's rows of the snapshot frame, sorted by `FETCH_DATE` ascending
(main.py line 225; within one token the symbol tie-break key is constant). -/
def rowsFor (df : List Snapshot) (s : String) : List Snapshot :=
  List.insertionSort dateLe (df.filter (fun r => r.sym == s))

/-- `df.groupby('TOKEN_SYMBOL')['FETCH_DATE'].max()` for one token
(main.py line 192): the last date of the sorted rows. -/
def mostRecentDate (df : List Snapshot) (s : String) : Option ℤ :=
  ((rowsFor df s).getLast?).map (·.date)

/-- `df.groupby('TOKEN_SYMBOL')['FETCH_DATE'].min()` for one token
(main.py line 212): the first date of the sorted rows. -/
def minFetchDate (df : List Snapshot) (s : String) : Option ℤ :=
  ((rowsFor df s).head?).map (·.date)

/-- Last non-null entry of a column, as computed per column by
`df.groupby('TOKEN_SYMBOL').last()` (main.py line 262). -/
def lastSome {α : Type} (xs : List (Option α)) : Option α :=
  (xs.filterMap id).getLast?

/-- `CURRENT_TOTAL_BALANCE` of a token (main.py lines 262-270). -/
def currentBalance (df : List Snapshot) (s : String) : Option ℚ :=
  lastSome ((rowsFor df s).map (·.balance))

/-- `CURRENT_TRADER_COUNT` of a token (main.py lines 262-270). -/
def currentTraders (df : List Snapshot) (s : String) : Option ℕ :=
  lastSome ((rowsFor df s).map (·.traders))

/-- `pd.merge_asof(..., direction='backward')` for one target on one token's
sorted rows (main.py lines 236-244): the last row whose `FETCH_DATE` is at or
before the target, i.e. the row with the greatest such date (the last one in
row order among equal dates). -/
def asofBackward (rows : List Snapshot) (tgt : ℤ) : Option Snapshot :=
  (rows.filter (fun r => decide (r.date ≤ tgt))).getLast?

/-- One surviving row of `merged` (main.py lines 236-331): a (token, window)
pair that passed the insufficient-history filter, together with the aligned
past snapshot's columns and the token's current columns. -/
structure AlignedRow where
  sym : String
  label : String
  target : ℤ
  pastDate : ℤ
  pastBalance : Option ℚ
  pastTraders : Option ℕ
  curBalance : Option ℚ
  curTraders : Option ℕ
deriving DecidableEq

/-- The surviving aligned rows of one token, one per window kept by the
filter `TARGET_DATE >= MIN_FETCH_DATE` (main.py lines 200-277).  Rows are
produced in configuration order of the windows; pandas emits them sorted by
target date instead, which only permutes each token's rows and affects no
membership, sum, or score below. -/
def alignedRows (df : List Snapshot) (windows : List (String × ℤ)) (s : String) :
    List AlignedRow :=
  windows.filterMap (fun w =>
    (mostRecentDate df s).bind (fun mx =>
      (minFetchDate df s).bind (fun mn =>
        if mn ≤ mx - w.2 then
          (asofBackward (rowsFor df s) (mx - w.2)).map (fun past =>
            { sym := s
              label := w.1
              target := mx - w.2
              pastDate := past.date
              pastBalance := past.balance
              pastTraders := past.traders
              curBalance := currentBalance df s
              curTraders := currentTraders df s })
        else none)))

/-- `BALANCE_PCT_CHANGE` column (main.py lines 295-298). -/
def balancePctChange (r : AlignedRow) : ℚ :=
  compute_balance_pct_change r.curBalance r.pastBalance

/-- `TRADER_COUNT_SCORE` column (main.py lines 311-314). -/
def traderCountScore (r : AlignedRow) : ℚ :=
  compute_trader_count_score r.curTraders r.pastTraders

/-- `EFFECTIVE_CHANGE = 0.7 * BALANCE_PCT_CHANGE + 0.3 * TRADER_COUNT_SCORE`
(main.py lines 341-346). -/
def effectiveChange (r : AlignedRow) : ℚ :=
  (7/10) * balancePctChange r + (3/10) * traderCountScore r

/-- `WEIGHTED_CHANGE = EFFECTIVE_CHANGE * TIME_WEIGHT` where `TIME_WEIGHT`
maps the period label through the weights dict (main.py lines 338, 349). -/
def weightedChange (r : AlignedRow) : ℚ :=
  effectiveChange r * weights r.label

/-- A token's final score: the sum of `WEIGHTED_CHANGE` over its rows of
`merged` (main.py lines 356-360). -/
def scoreOf (df : List Snapshot) (windows : List (String × ℤ)) (s : String) : ℚ :=
  ((alignedRows df windows s).map weightedChange).sum

/-- `df['TOKEN_SYMBOL'].unique()`: distinct symbols in first-appearance
order (main.py line 196). -/
def uniqueSyms (df : List Snapshot) : List String :=
  df.foldl (fun acc r => if acc.contains r.sym then acc else acc ++ [r.sym]) []

/-- One row of the final `token_scores` frame (main.py lines 356-367 and 408):
symbol, address and category, score, current columns, and the token's
`INTERVAL_METRICS` list. -/
structure TokenScore where
  sym : String
  addr : String
  cat : String
  score : ℚ
  curBalance : Option ℚ
  curTraders : Option ℕ
  metrics : List AlignedRow
deriving DecidableEq

/-- Build a token's output row.  Address and category come from the token's
first row (`drop_duplicates` keeps the first occurrence; main.py line 366 —
the source assumes them constant across a token's rows, so `getD` defaults
are unreachable for tokens that have rows). -/
def mkTokenScore (df : List Snapshot) (windows : List (String × ℤ)) (s : String) :
    TokenScore :=
  { sym := s
    addr := (((rowsFor df s).head?).map (·.addr)).getD ""
    cat := (((rowsFor df s).head?).map (·.cat)).getD ""
    score := scoreOf df windows s
    curBalance := currentBalance df s
    curTraders := currentTraders df s
    metrics := alignedRows df windows s }

/-- Symbol order used by pandas `groupby` (keys ascending). -/
def symLe (a b : String) : Prop := a ≤ b

instance : DecidableRel symLe := fun a b => inferInstanceAs (Decidable (a ≤ b))

instance : IsTotal String symLe := ⟨fun a b => le_total a b⟩

instance : IsTrans String symLe := ⟨fun _ _ _ hab hbc => le_trans hab hbc⟩

/-- Score-descending order used by
`token_scores.sort_values('WEIGHTED_CHANGE', ascending=False)`
(main.py line 363). -/
def scoreGe (a b : TokenScore) : Prop := b.score ≤ a.score

instance : DecidableRel scoreGe := fun a b => inferInstanceAs (Decidable (b.score ≤ a.score))

instance : IsTotal TokenScore scoreGe := ⟨fun a b => (le_total b.score a.score).symm.symm⟩

instance : IsTrans TokenScore scoreGe := ⟨fun _ _ _ hab hbc => le_trans hbc hab⟩

/-- `token_scores` (main.py lines 356-367): group `merged` by token — only
tokens with at least one surviving window appear — aggregate, and sort by
score descending.  The sort among equal scores is a stable refinement of the
source's unspecified tie order. -/
def tokenScores (df : List Snapshot) (windows : List (String × ℤ)) : List TokenScore :=
  List.insertionSort scoreGe
    (((List.insertionSort symLe (uniqueSyms df)).filter
        (fun s => !(alignedRows df windows s).isEmpty)).map (mkTokenScore df windows))

/-- The two enrichment left-joins (main.py lines 384 and 397) on their
successful path: the right tables are built from dicts keyed by address, so
each scored row matches at most one enrichment record per table and a
missing address yields `none` fields on a retained row.  The price-side
frame tolerates even an empty map (the `reset_index().rename(...)` of
main.py line 394 always gives it a `TOKEN_ADDRESS` column); the metadata
merge does not — its reachable empty-map failure is modelled separately by
`mergeTokenData` below. -/
def enrich {μ π : Type} (ts : List TokenScore)
    (meta : String → Option μ) (price : String → Option π) :
    List (TokenScore × Option μ × Option π) :=
  ts.map (fun t => (t, meta t.addr, price t.addr))

/-- The scoring pipeline from snapshot set to enriched ranked output
(main.py lines 190-408), with the enrichment responses as inputs. -/
def pipeline {μ π : Type} (df : List Snapshot)
    (meta : String → Option μ) (price : String → Option π) :
    List (TokenScore × Option μ × Option π) :=
  enrich (tokenScores df windowsConfig) meta price

/-- `get_token_data` (utils/birdseye.py lines 39-93): per batch, call the
service; on success record an entry for every address of the batch (absent
dict keys become `none`, mirroring `.get(address, \x7b\x7d)`); a failed batch
is caught and contributes no entries, and the loop continues. -/
def get_token_data {μ π ε : Type} (batches : List (List String))
    (call : List String → Except ε ((String → Option μ) × (String → Option π))) :
    List (String × Option μ × Option π) :=
  batches.flatMap (fun batch =>
    match call batch with
    | Except.ok maps => batch.map (fun a => (a, maps.1 a, maps.2 a))
    | Except.error _ => [])

/-- Lookup in the compiled address-keyed map. -/
def lookupAddr {α : Type} (m : List (String × α)) (a : String) : Option α :=
  (m.find? (fun p => p.1 == a)).map (·.2)

/-- The metadata merge
`token_data_df = pd.DataFrame.from_dict(token_data, orient='index')` then
`token_scores.merge(token_data_df, left_on='TOKEN_ADDRESS',
right_on='TOKEN_ADDRESS', how='left')` (main.py lines 381-384), including
its error path.  On a non-empty `token_data` dict every row dict carries a
`TOKEN_ADDRESS` key (utils/snowflake.py lines 221-244), so the frame has
that column and the left merge keeps every scored row in order with null
fields where the address is missing.  On the empty dict — reachable whenever
no scored address is present in the `TOKEN_DATA` table — `from_dict` yields
a frame with no columns at all and the merge raises
`KeyError: 'TOKEN_ADDRESS'`, which the handler catches (main.py lines
448-455) and turns into a 500 response that drops every scored row. -/
def mergeTokenData {μ : Type} (ts : List TokenScore) (tokenData : List (String × μ)) :
    Except String (List (TokenScore × Option μ)) :=
  if tokenData.isEmpty then Except.error "KeyError: TOKEN_ADDRESS"
  else Except.ok (ts.map (fun t => (t, lookupAddr tokenData t.addr)))

/-- Snapshot fixture of the spec's end-to-end scenario: token `T` with
snapshots at hours 0 (balance 100, traders 2), 1 (150, 3) and 2 (200, 5). -/
def dfT : List Snapshot :=
  [ { sym := "T", addr := "addrT", cat := "ai", balance := some 100, traders := some 2, date := 0 }
  , { sym := "T", addr := "addrT", cat := "ai", balance := some 150, traders := some 3, date := 1 }
  , { sym := "T", addr := "addrT", cat := "ai", balance := some 200, traders := some 5, date := 2 } ]

/-- The two-window configuration of the end-to-end scenario. -/
def winC1 : List (String × ℤ) := [("1h", 1), ("2h", 2)]

/-- Single-snapshot fixture: token `S` observed exactly once. -/
def dfSingle : List Snapshot :=
  [ { sym := "S", addr := "addrS", cat := "ai", balance := some 7, traders := some 1, date := 5 } ]

/-- Fixture with a token observed over a 30-hour range, long enough for the
24-hour window to survive. -/
def dfLong : List Snapshot :=
  [ { sym := "L", addr := "addrL", cat := "ai", balance := some 10, traders := some 1, date := 0 }
  , { sym := "L", addr := "addrL", cat := "ai", balance := some 20, traders := some 2, date := 30 } ]

/-- A concrete aligned row carrying the informational-only label. -/
def row24 : AlignedRow :=
  { sym := "X", label := "24h", target := 0, pastDate := 0
    pastBalance := some 1, pastTraders := some 1
    curBalance := some 2, curTraders := some 2 }

/-- The aligned row the 1h window produces on the end-to-end fixture. -/
def rowT1h : AlignedRow :=
  { sym := "T", label := "1h", target := 1, pastDate := 1
    pastBalance := some 150, pastTraders := some 3
    curBalance := some 200, curTraders := some 5 }

/-- The aligned row the 2h window produces on the end-to-end fixture. -/
def rowT2h : AlignedRow :=
  { sym := "T", label := "2h", target := 0, pastDate := 0
    pastBalance := some 100, pastTraders := some 2
    curBalance := some 200, curTraders := some 5 }

/-- A one-row scored list used to exercise enrichment concretely. -/
def tsW : List TokenScore := [mkTokenScore dfT winC1 "T"]

/-- In a list that is pairwise `dateLe`-sorted, every member's date is at
most the date of the last element. -/
lemma pairwise_dateLe_getLast :
    ∀ {l : List Snapshot}, l.Pairwise dateLe →
      ∀ {x y : Snapshot}, x ∈ l → l.getLast? = some y → x.date ≤ y.date := by
  intro l
  induction l with
  | nil => intro _ x y hx _; cases hx
  | cons a t ih =>
    intro hp x y hx hl
    cases t with
    | nil =>
      have hxa : x = a := by simpa using hx
      have hya : a = y := by simpa using hl
      rw [hxa, hya]
    | cons b t' =>
      rw [List.getLast?_cons_cons] at hl
      have hy : y ∈ b :: t' := List.mem_of_mem_getLast? hl
      rcases List.mem_cons.mp hx with rfl | hx'
      · exact List.rel_of_pairwise_cons hp hy
      · exact ih hp.of_cons hx' hl

/-- The per-token rows are sorted by fetch date. -/
lemma sorted_rowsFor (df : List Snapshot) (s : String) :
    (rowsFor df s).Pairwise dateLe :=
  List.sorted_insertionSort dateLe _

/-- Membership in a token's sorted rows. -/
lemma mem_rowsFor {df : List Snapshot} {s : String} {x : Snapshot} :
    x ∈ rowsFor df s ↔ x ∈ df ∧ x.sym = s := by
  rw [rowsFor, (List.perm_insertionSort dateLe _).mem_iff, List.mem_filter]
  simp

/-- The backward as-of match is a row at or before the target. -/
lemma asofBackward_mem_le {rows : List Snapshot} {tgt : ℤ} {y : Snapshot}
    (h : asofBackward rows tgt = some y) : y ∈ rows ∧ y.date ≤ tgt := by
  have hy := List.mem_of_mem_getLast? h
  have hf := List.mem_filter.mp hy
  exact ⟨hf.1, by simpa using hf.2⟩

/-- The backward as-of match has the greatest date among rows at or before
the target. -/
lemma asofBackward_greatest {rows : List Snapshot} {tgt : ℤ} {y : Snapshot}
    (hs : rows.Pairwise dateLe) (h : asofBackward rows tgt = some y)
    {x : Snapshot} (hx : x ∈ rows) (hxle : x.date ≤ tgt) : x.date ≤ y.date := by
  have hxf : x ∈ rows.filter (fun r => decide (r.date ≤ tgt)) :=
    List.mem_filter.mpr ⟨hx, by simpa using hxle⟩
  exact pairwise_dateLe_getLast (hs.filter _) hxf h

/-- If any row is at or before the target, the backward as-of match exists. -/
lemma asofBackward_isSome {rows : List Snapshot} {tgt : ℤ}
    (h : ∃ x ∈ rows, x.date ≤ tgt) : ∃ y, asofBackward rows tgt = some y := by
  obtain ⟨x, hx, hle⟩ := h
  have hne : rows.filter (fun r => decide (r.date ≤ tgt)) ≠ [] :=
    List.ne_nil_of_mem (List.mem_filter.mpr ⟨hx, by simpa using hle⟩)
  exact Option.isSome_iff_exists.mp (List.getLast?_isSome.mpr hne)

/-- Decomposition of membership in a token's aligned rows. -/
lemma of_mem_alignedRows {df : List Snapshot} {windows : List (String × ℤ)}
    {s : String} {r : AlignedRow} (h : r ∈ alignedRows df windows s) :
    ∃ w ∈ windows, ∃ mx mn past,
      mostRecentDate df s = some mx ∧ minFetchDate df s = some mn ∧
      mn ≤ mx - w.2 ∧ asofBackward (rowsFor df s) (mx - w.2) = some past ∧
      r.sym = s ∧ r.label = w.1 ∧ r.target = mx - w.2 ∧ r.pastDate = past.date ∧
      r.pastBalance = past.balance ∧ r.pastTraders = past.traders ∧
      r.curBalance = currentBalance df s ∧ r.curTraders = currentTraders df s := by
  rw [alignedRows, List.mem_filterMap] at h
  obtain ⟨w, hw, hfw⟩ := h
  refine ⟨w, hw, ?_⟩
  rcases hmx : mostRecentDate df s with _ | mx
  · rw [hmx, Option.none_bind] at hfw; cases hfw
  rcases hmn : minFetchDate df s with _ | mn
  · rw [hmx, hmn, Option.some_bind, Option.none_bind] at hfw; cases hfw
  rw [hmx, hmn, Option.some_bind, Option.some_bind] at hfw
  by_cases hcond : mn ≤ mx - w.2
  · rw [if_pos hcond] at hfw
    rcases Option.map_eq_some'.mp hfw with ⟨past, hpast, hr⟩
    rw [← hr]
    exact ⟨mx, mn, past, rfl, rfl, hcond, hpast, rfl, rfl, rfl, rfl, rfl, rfl, rfl, rfl⟩
  · rw [if_neg hcond] at hfw; cases hfw

/-- Construction of membership in a token's aligned rows. -/
lemma mem_alignedRows_intro {df : List Snapshot} {windows : List (String × ℤ)}
    {s : String} {w : String × ℤ} {mx mn : ℤ} {past : Snapshot}
    (hw : w ∈ windows) (hmx : mostRecentDate df s = some mx)
    (hmn : minFetchDate df s = some mn) (hcond : mn ≤ mx - w.2)
    (hpast : asofBackward (rowsFor df s) (mx - w.2) = some past) :
    ({ sym := s, label := w.1, target := mx - w.2, pastDate := past.date,
       pastBalance := past.balance, pastTraders := past.traders,
       curBalance := currentBalance df s,
       curTraders := currentTraders df s } : AlignedRow) ∈ alignedRows df windows s := by
  rw [alignedRows, List.mem_filterMap]
  refine ⟨w, hw, ?_⟩
  rw [hmx, hmn, Option.some_bind, Option.some_bind, if_pos hcond, hpast]
  rfl

/-- The minimum fetch date is attained by the first sorted row. -/
lemma minFetchDate_head {df : List Snapshot} {s : String} {mn : ℤ}
    (hmn : minFetchDate df s = some mn) :
    ∃ x0, (rowsFor df s).head? = some x0 ∧ x0.date = mn := by
  rcases hh : (rowsFor df s).head? with _ | x0
  · rw [minFetchDate, hh] at hmn; cases hmn
  · rw [minFetchDate, hh] at hmn
    exact ⟨x0, rfl, Option.some.inj hmn⟩

/-- A window whose target is at or after the minimum fetch date survives
into the aligned rows. -/
lemma aligned_window_kept {df : List Snapshot} {windows : List (String × ℤ)}
    {s : String} {w : String × ℤ} {mx mn : ℤ}
    (hw : w ∈ windows) (hmx : mostRecentDate df s = some mx)
    (hmn : minFetchDate df s = some mn) (hcond : mn ≤ mx - w.2) :
    ∃ r ∈ alignedRows df windows s, r.label = w.1 ∧ r.target = mx - w.2 := by
  obtain ⟨x0, hx0, hx0d⟩ := minFetchDate_head hmn
  have hx0mem : x0 ∈ rowsFor df s := List.mem_of_mem_head? hx0
  have hx0le : x0.date ≤ mx - w.2 := by rw [hx0d]; exact hcond
  obtain ⟨past, hpast⟩ := asofBackward_isSome ⟨x0, hx0mem, hx0le⟩
  exact ⟨_, mem_alignedRows_intro hw hmx hmn hcond hpast, rfl, rfl⟩

/-- Decomposition of membership in the ranked output. -/
lemma of_mem_tokenScores {df : List Snapshot} {windows : List (String × ℤ)}
    {t : TokenScore} (h : t ∈ tokenScores df windows) :
    ∃ s, alignedRows df windows s ≠ [] ∧ t = mkTokenScore df windows s := by
  rw [tokenScores, (List.perm_insertionSort scoreGe _).mem_iff, List.mem_map] at h
  obtain ⟨s, hs, ht⟩ := h
  have hf := List.mem_filter.mp hs
  refine ⟨s, ?_, ht.symm⟩
  simpa [List.isEmpty_eq_false] using hf.2

/-- Dropping summands that are zero does not change a weighted sum. -/
lemma sum_map_filter_of_zero {l : List AlignedRow} {p : AlignedRow → Bool}
    (h0 : ∀ r ∈ l, p r = false → weightedChange r = 0) :
    (l.map weightedChange).sum = ((l.filter p).map weightedChange).sum := by
  induction l with
  | nil => rfl
  | cons a t ih =>
    have ht : ∀ r ∈ t, p r = false → weightedChange r = 0 :=
      fun r hr => h0 r (List.mem_cons_of_mem _ hr)
    cases hpa : p a
    · simp [List.filter_cons, hpa, h0 a (List.mem_cons_self a t) hpa, ih ht]
    · simp [List.filter_cons, hpa, ih ht]

/-- Every configured window has a positive duration. -/
lemma windowsConfig_pos : ∀ w ∈ windowsConfig, 0 < w.2 := by decide

/-- C2: `balance_pct_change` returns 0 when either input is missing; at a
zero past it returns 100 for a positive current and 0 otherwise; in every
other case it returns `(current - past) / abs(past) * 100`; and it takes the
claimed values on the four listed inputs. -/
theorem c2_balance_pct_change_cases :
    (∀ p, compute_balance_pct_change none p = 0) ∧
    (∀ c, compute_balance_pct_change c none = 0) ∧
    (∀ c : ℚ, 0 < c → compute_balance_pct_change (some c) (some 0) = 100) ∧
    (∀ c : ℚ, ¬0 < c → compute_balance_pct_change (some c) (some 0) = 0) ∧
    (∀ c p : ℚ, p ≠ 0 → compute_balance_pct_change (some c) (some p) = (c - p) / |p| * 100) ∧
    compute_balance_pct_change (some 100) (some 50) = 100 ∧
    compute_balance_pct_change (some 50) (some 0) = 100 ∧
    compute_balance_pct_change (some 0) (some 0) = 0 ∧
    compute_balance_pct_change none (some 10) = 0 := by
  refine ⟨?_, ?_, ?_, ?_, ?_, ?_, ?_, ?_, ?_⟩
  · intro p; cases p <;> rfl
  · intro c; cases c <;> rfl
  · intro c hc; simp [compute_balance_pct_change, hc]
  · intro c hc; simp [compute_balance_pct_change, hc]
  · intro c p hp; simp [compute_balance_pct_change, hp]
  · norm_num [compute_balance_pct_change]
  · norm_num [compute_balance_pct_change]
  · norm_num [compute_balance_pct_change]
  · rfl

/-- Witness for C2: the hypothesis-bearing cases at concrete inputs. -/
theorem c2_balance_pct_change_cases_witness :
    compute_balance_pct_change (some 100) (some 50) = (100 - 50) / |(50 : ℚ)| * 100 ∧
    compute_balance_pct_change (some 8) (some 0) = 100 ∧
    compute_balance_pct_change (some (-3)) (some 0) = 0 := by
  refine ⟨?_, ?_, ?_⟩
  · exact c2_balance_pct_change_cases.2.2.2.2.1 100 50 (by norm_num)
  · exact c2_balance_pct_change_cases.2.2.1 8 (by norm_num)
  · exact c2_balance_pct_change_cases.2.2.2.1 (-3) (by norm_num)

/-- C3: `trader_count_score` returns 0 when either input is missing or when
`current <= past`, returns `2 ** current - 2 ** past` otherwise — a positive
quantity, so only increases are rewarded — and takes the claimed values on
the three listed inputs. -/
theorem c3_trader_count_score_cases :
    (∀ p, compute_trader_count_score none p = 0) ∧
    (∀ c, compute_trader_count_score c none = 0) ∧
    (∀ c p : ℕ, c ≤ p → compute_trader_count_score (some c) (some p) = 0) ∧
    (∀ c p : ℕ, p < c →
      compute_trader_count_score (some c) (some p) = (2 : ℚ) ^ c - (2 : ℚ) ^ p) ∧
    (∀ c p : ℕ, p < c → 0 < compute_trader_count_score (some c) (some p)) ∧
    compute_trader_count_score (some 5) (some 3) = 24 ∧
    compute_trader_count_score (some 3) (some 5) = 0 ∧
    compute_trader_count_score (some 4) (some 4) = 0 := by
  refine ⟨?_, ?_, ?_, ?_, ?_, ?_, ?_, ?_⟩
  · intro p; cases p <;> rfl
  · intro c; cases c <;> rfl
  · intro c p hcp; simp [compute_trader_count_score, hcp]
  · intro c p hpc; simp [compute_trader_count_score, Nat.not_le.mpr hpc, not_le.mpr hpc]
  · intro c p hpc
    have hlt : (2 : ℚ) ^ p < (2 : ℚ) ^ c := pow_lt_pow_right₀ (by norm_num) hpc
    simp only [compute_trader_count_score, if_neg (Nat.not_le.mpr hpc)]
    linarith
  · norm_num [compute_trader_count_score]
  · norm_num [compute_trader_count_score]
  · norm_num [compute_trader_count_score]

/-- Witness for C3: the hypothesis-bearing cases at concrete inputs. -/
theorem c3_trader_count_score_cases_witness :
    compute_trader_count_score (some 4) (some 4) = 0 ∧
    compute_trader_count_score (some 5) (some 3) = (2 : ℚ) ^ 5 - (2 : ℚ) ^ 3 ∧
    0 < compute_trader_count_score (some 5) (some 3) := by
  refine ⟨?_, ?_, ?_⟩
  · exact c3_trader_count_score_cases.2.2.1 4 4 (by norm_num)
  · exact c3_trader_count_score_cases.2.2.2.1 5 3 (by norm_num)
  · exact c3_trader_count_score_cases.2.2.2.2.1 5 3 (by norm_num)

/-- C4: every aligned row was matched backward — the past snapshot's date is
at or before the target, the past snapshot is a real snapshot of the token,
and no token snapshot at or before the target has a later date (greatest
at-or-before match, never a future or nearest-in-either-direction match). -/
theorem c4_backward_asof_no_lookahead :
    ∀ (df : List Snapshot) (windows : List (String × ℤ)) (s : String) (r : AlignedRow),
      r ∈ alignedRows df windows s →
      r.pastDate ≤ r.target ∧
      (∃ x ∈ df, x.sym = s ∧ x.date = r.pastDate) ∧
      (∀ x ∈ df, x.sym = s → x.date ≤ r.target → x.date ≤ r.pastDate) := by
  intro df windows s r hr
  obtain ⟨w, hw, mx, mn, past, hmx, hmn, hcond, hpast, hsym, hlbl, htgt, hpd,
    hpb, hpt, hcb, hct⟩ := of_mem_alignedRows hr
  have hmem := asofBackward_mem_le hpast
  refine ⟨?_, ?_, ?_⟩
  · rw [hpd, htgt]; exact hmem.2
  · have hx := mem_rowsFor.mp hmem.1
    exact ⟨past, hx.1, hx.2, hpd.symm⟩
  · intro x hx hxs hxle
    rw [htgt] at hxle
    rw [hpd]
    exact asofBackward_greatest (sorted_rowsFor df s) hpast (mem_rowsFor.mpr ⟨hx, hxs⟩) hxle

/-- Witness for C4: the 1h row of the end-to-end fixture. -/
theorem c4_backward_asof_no_lookahead_witness :
    rowT1h.pastDate ≤ rowT1h.target :=
  (c4_backward_asof_no_lookahead dfT windowsConfig "T" rowT1h (by decide)).1

/-- C5: a (token, window) period whose target date precedes the token's
minimum fetch date is dropped before alignment — no aligned row (hence no
`INTERVAL_METRICS` entry) carries that window's label, and since the score is
exactly the sum of weighted changes over the aligned rows, the window
contributes nothing; the computation is total, so no error arises; a window
whose target equals the minimum fetch date is kept. -/
theorem c5_insufficient_history_dropped :
    ∀ (df : List Snapshot) (s lbl : String) (h : ℤ) (mx mn : ℤ),
      (lbl, h) ∈ windowsConfig →
      mostRecentDate df s = some mx →
      minFetchDate df s = some mn →
      (mx - h < mn → ∀ r ∈ alignedRows df windowsConfig s, r.label ≠ lbl) ∧
      (mx - h = mn → ∃ r ∈ alignedRows df windowsConfig s,
        r.label = lbl ∧ r.target = mx - h) ∧
      scoreOf df windowsConfig s = ((alignedRows df windowsConfig s).map weightedChange).sum ∧
      (∀ t ∈ tokenScores df windowsConfig, t.metrics = alignedRows df windowsConfig t.sym) := by
  intro df s lbl h mx mn hwin hmx hmn
  have hinj : ∀ w ∈ windowsConfig, w.1 = lbl → w.2 = h := by
    fin_cases hwin <;> decide
  refine ⟨?_, ?_, rfl, ?_⟩
  · intro hlt r hr hlbl
    obtain ⟨w, hw, mx', mn', past, hmx', hmn', hcond, hpast, hsym, hlblw, htgt,
      hpd, hpb, hpt, hcb, hct⟩ := of_mem_alignedRows hr
    have hmxe : mx' = mx := by rw [hmx] at hmx'; exact (Option.some.inj hmx').symm
    have hmne : mn' = mn := by rw [hmn] at hmn'; exact (Option.some.inj hmn').symm
    have hwh : w.2 = h := hinj w hw (by rw [← hlblw, hlbl])
    rw [hmxe, hmne, hwh] at hcond
    omega
  · intro heq
    have hcond : mn ≤ mx - ((lbl, h) : String × ℤ).2 := le_of_eq heq.symm
    exact aligned_window_kept hwin hmx hmn hcond
  · intro t ht
    obtain ⟨s', hne, rfl⟩ := of_mem_tokenScores ht
    rfl

/-- Witness for C5 on the end-to-end fixture (most recent date 2, minimum 0):
the 4h window (target -2) is dropped, the 2h window (target 0) is kept. -/
theorem c5_insufficient_history_dropped_witness :
    rowT1h.label ≠ "4h" ∧
    (alignedRows dfT windowsConfig "T").any (fun r => r.label == "2h") = true := by
  constructor
  · exact (c5_insufficient_history_dropped dfT "T" "4h" 4 2 0 (by decide) rfl rfl).1
      (by norm_num) rowT1h (by decide)
  · obtain ⟨r, hr, hlbl, htgt⟩ :=
      (c5_insufficient_history_dropped dfT "T" "2h" 2 2 0 (by decide) rfl rfl).2.1 (by norm_num)
    exact List.any_eq_true.mpr ⟨r, hr, by simp [hlbl]⟩

/-- C6: the effective change combines the two metrics with fixed weights
0.7 and 0.3, the weighted change scales it by the window's decay weight, the
decay weights are 0.4 / 0.35 / 0.2 / 0.05 / 0.0, a 24h row always has
weighted change 0 and dropping all 24h rows never changes a score, while the
24h window is still aligned and reported whenever its history suffices. -/
theorem c6_weighting_and_decay :
    (∀ r : AlignedRow, effectiveChange r =
        (7/10) * compute_balance_pct_change r.curBalance r.pastBalance +
        (3/10) * compute_trader_count_score r.curTraders r.pastTraders) ∧
    (∀ r : AlignedRow, weightedChange r = effectiveChange r * weights r.label) ∧
    (weights "1h" = 2/5 ∧ weights "2h" = 7/20 ∧ weights "4h" = 1/5 ∧
      weights "12h" = 1/20 ∧ weights "24h" = 0) ∧
    (∀ r : AlignedRow, r.label = "24h" → weightedChange r = 0) ∧
    (∀ (df : List Snapshot) (windows : List (String × ℤ)) (s : String),
      scoreOf df windows s =
        (((alignedRows df windows s).filter
            (fun r => !(r.label == "24h"))).map weightedChange).sum) ∧
    (∀ (df : List Snapshot) (s : String) (mx mn : ℤ),
      mostRecentDate df s = some mx → minFetchDate df s = some mn →
      mn ≤ mx - 24 → ∃ r ∈ alignedRows df windowsConfig s, r.label = "24h") := by
  have h24 : ∀ r : AlignedRow, r.label = "24h" → weightedChange r = 0 := by
    intro r hlbl
    rw [weightedChange, hlbl]
    simp [weights]
  refine ⟨fun r => rfl, fun r => rfl, ⟨rfl, rfl, rfl, rfl, rfl⟩, h24, ?_, ?_⟩
  · intro df windows s
    exact sum_map_filter_of_zero (fun r hr hp => h24 r (by simpa using hp))
  · intro df s mx mn hmx hmn hcond
    have hkept := aligned_window_kept
      (show (("24h", 24) : String × ℤ) ∈ windowsConfig by decide) hmx hmn hcond
    obtain ⟨r, hr, hlbl, htgt⟩ := hkept
    exact ⟨r, hr, hlbl⟩

/-- Witness for C6: a concrete 24h row has weighted change 0, and on the
30-hour fixture the 24h window is aligned and reported. -/
theorem c6_weighting_and_decay_witness :
    weightedChange row24 = 0 ∧
    (alignedRows dfLong windowsConfig "L").any (fun r => r.label == "24h") = true := by
  constructor
  · exact c6_weighting_and_decay.2.2.2.1 row24 rfl
  · obtain ⟨r, hr, hlbl⟩ :=
      c6_weighting_and_decay.2.2.2.2.2 dfLong "L" 30 0 rfl rfl (by norm_num)
    exact List.any_eq_true.mpr ⟨r, hr, by simp [hlbl]⟩

/-- C1: every output row's score is the sum of the weighted changes of its
surviving aligned rows; and on the spec's end-to-end fixture (token `T`, two
windows 1h / 2h) the 1h window aligns to the hour-1 snapshot, the 2h window
to the hour-0 snapshot, the weighted changes are exactly 916/75 (≈ 12.21)
and 686/25 (= 27.44), and the total score is 2974/75, within 0.01 of 39.65. -/
theorem c1_end_to_end_score :
    (∀ (df : List Snapshot) (windows : List (String × ℤ)) (t : TokenScore),
      t ∈ tokenScores df windows →
      t.score = ((alignedRows df windows t.sym).map weightedChange).sum) ∧
    alignedRows dfT winC1 "T" = [rowT1h, rowT2h] ∧
    (alignedRows dfT winC1 "T").map balancePctChange = [100/3, 100] ∧
    (alignedRows dfT winC1 "T").map traderCountScore = [24, 28] ∧
    (alignedRows dfT winC1 "T").map effectiveChange = [458/15, 392/5] ∧
    (alignedRows dfT winC1 "T").map weightedChange = [916/75, 686/25] ∧
    scoreOf dfT winC1 "T" = 2974/75 ∧
    |scoreOf dfT winC1 "T" - 3965/100| < 1/100 := by
  have hrows : alignedRows dfT winC1 "T" = [rowT1h, rowT2h] := by decide
  have hscore : scoreOf dfT winC1 "T" = 2974/75 := by
    rw [scoreOf, hrows]
    norm_num [weightedChange, effectiveChange, balancePctChange, traderCountScore,
      compute_balance_pct_change, compute_trader_count_score, weights, rowT1h, rowT2h]
  refine ⟨?_, hrows, ?_, ?_, ?_, ?_, hscore, ?_⟩
  · intro df windows t ht
    obtain ⟨s, hne, rfl⟩ := of_mem_tokenScores ht
    rfl
  · rw [hrows]
    norm_num [balancePctChange, compute_balance_pct_change, rowT1h, rowT2h]
  · rw [hrows]
    norm_num [traderCountScore, compute_trader_count_score, rowT1h, rowT2h]
  · rw [hrows]
    norm_num [effectiveChange, balancePctChange, traderCountScore,
      compute_balance_pct_change, compute_trader_count_score, rowT1h, rowT2h]
  · rw [hrows]
    norm_num [weightedChange, effectiveChange, balancePctChange, traderCountScore,
      compute_balance_pct_change, compute_trader_count_score, weights, rowT1h, rowT2h]
  · rw [hscore, abs_lt]
    constructor <;> norm_num

/-- Witness for C1: the score equation instantiated on the fixture's row. -/
theorem c1_end_to_end_score_witness :
    (mkTokenScore dfT winC1 "T").score =
      ((alignedRows dfT winC1 (mkTokenScore dfT winC1 "T").sym).map weightedChange).sum :=
  c1_end_to_end_score.1 dfT winC1 (mkTokenScore dfT winC1 "T")
    (show mkTokenScore dfT winC1 "T" ∈ [mkTokenScore dfT winC1 "T"] from
      List.mem_singleton.mpr rfl)

/-- C7: the output list is sorted by score descending (every earlier row's
score is at least every later row's score, so in particular adjacent pairs
are ordered), and the enrichment joins keep exactly these rows in this
order. -/
theorem c7_output_sorted_desc :
    ∀ {μ π : Type} (df : List Snapshot)
      (meta : String → Option μ) (price : String → Option π),
      List.Pairwise scoreGe (tokenScores df windowsConfig) ∧
      (pipeline df meta price).map Prod.fst = tokenScores df windowsConfig := by
  intro μ π df meta price
  constructor
  · exact List.sorted_insertionSort scoreGe _
  · simp [pipeline, enrich, Function.comp_def]

/-- C8 (code bug): the claim — a scored token whose address is absent from
the metadata map keeps its output row and the pipeline does not fail — is
contradicted by the code at its failing input.  With one scored token and an
empty metadata map (no scored address present in `TOKEN_DATA`), the token's
address is indeed absent from the map, yet the metadata merge of main.py
line 384 raises `KeyError` on the column-less `from_dict` frame instead of
keeping the row, and the handler returns a 500 that drops every scored row;
on any non-empty map the merge does behave as the claim describes, keeping
every row in order with `none` fields for missing addresses. -/
theorem c8_enrichment_empty_metadata_fails :
    lookupAddr ([] : List (String × Unit)) (mkTokenScore dfT winC1 "T").addr = none ∧
    mergeTokenData tsW ([] : List (String × Unit)) =
      Except.error "KeyError: TOKEN_ADDRESS" ∧
    (∀ {μ : Type} (ts : List TokenScore) (tokenData : List (String × μ)),
      tokenData ≠ [] →
      mergeTokenData ts tokenData =
        Except.ok (ts.map (fun t => (t, lookupAddr tokenData t.addr)))) := by
  refine ⟨rfl, rfl, ?_⟩
  intro μ ts tokenData hne
  rw [mergeTokenData, if_neg]
  simpa [List.isEmpty_eq_false] using hne

/-- Witness for C8: the non-empty-map conjunct applied to a concrete
one-entry metadata map covering the scored token's address. -/
theorem c8_enrichment_empty_metadata_fails_witness :
    mergeTokenData tsW [("addrT", ())] =
      Except.ok [(mkTokenScore dfT winC1 "T", some ())] := by
  have h := c8_enrichment_empty_metadata_fails.2.2 tsW [("addrT", ())]
    (List.cons_ne_nil _ _)
  rw [h]
  rfl

/-- C9: the pipeline is a pure function of the snapshot set and the two
enrichment responses — two runs on identical inputs produce identical rows,
values and order. -/
theorem c9_pipeline_deterministic :
    ∀ {μ π : Type} (df : List Snapshot)
      (meta : String → Option μ) (price : String → Option π)
      (out1 out2 : List (TokenScore × Option μ × Option π)),
      out1 = pipeline df meta price → out2 = pipeline df meta price →
      out1 = out2 := by
  intro μ π df meta price out1 out2 h1 h2
  rw [h1, h2]

/-- Witness for C9: two runs on the fixture coincide. -/
theorem c9_pipeline_deterministic_witness :
    pipeline dfT (fun _ => (none : Option Unit)) (fun _ => (none : Option Unit)) =
      pipeline dfT (fun _ => (none : Option Unit)) (fun _ => (none : Option Unit)) :=
  c9_pipeline_deterministic dfT (fun _ => none) (fun _ => none) _ _ rfl rfl

/-- C10: a token all of whose windows were dropped produces no aligned rows
and is absent from the ranked output entirely; in particular a token with
exactly one snapshot loses every window, since every configured window has a
positive duration. -/
theorem c10_all_windows_dropped_token_absent :
    ∀ (df : List Snapshot) (s : String),
      (alignedRows df windowsConfig s = [] →
        ∀ t ∈ tokenScores df windowsConfig, t.sym ≠ s) ∧
      ((df.filter (fun r => r.sym == s)).length = 1 →
        alignedRows df windowsConfig s = []) := by
  intro df s
  constructor
  · intro hnil t ht hts
    obtain ⟨s', hne, rfl⟩ := of_mem_tokenScores ht
    have hss : s' = s := hts
    rw [hss] at hne
    exact hne hnil
  · intro hlen
    have h1 : (rowsFor df s).length = 1 := by
      rw [rowsFor, (List.perm_insertionSort dateLe _).length_eq, hlen]
    obtain ⟨x, hx⟩ := List.length_eq_one.mp h1
    rw [alignedRows]
    refine List.filterMap_eq_nil_iff.mpr (fun w hw => ?_)
    have hpos : 0 < w.2 := windowsConfig_pos w hw
    rw [mostRecentDate, minFetchDate, hx]
    simp only [List.getLast?_singleton, List.head?_cons, Option.map_some',
      Option.some_bind]
    rw [if_neg (by omega)]

/-- Witness for C10: the single-snapshot token is ranked nowhere. -/
theorem c10_all_windows_dropped_token_absent_witness :
    (tokenScores dfSingle windowsConfig).all (fun t => !(t.sym == "S")) = true := by
  have h := c10_all_windows_dropped_token_absent dfSingle "S"
  have h1 := h.1 (h.2 rfl)
  exact List.all_eq_true.mpr (fun t ht => by simpa using h1 t ht)

end FetchTradersPort
